import Mathlib

/-!
# Verification of the haptic intensity sliders parameter model

Shallow embedding of `src/sliders_ui.py` (class `Settings` and its helper
functions `clip` and `safe_20log10`) over the real numbers, together with
theorems settling the specification claims.  Python floats are modelled as
real numbers; Python's `round(x, 0)` (banker's rounding, half to even) is
modelled by `roundE`.
-/

namespace SlidersUI

noncomputable section

open Real

/-- Embeds `clip(value, min, max)` from the source: two sequential tests,
first raising to the lower bound, then lowering to the upper bound. -/
def clip (value lo hi : ℝ) : ℝ :=
  let v1 := if value < lo then lo else value
  if v1 > hi then hi else v1

/-- Embeds `safe_20log10(value)` with the default `safe_threshold=0.001`
and `safe_value=-60`: the guarded `20 * math.log10(value)`. -/
def safe_20log10 (value : ℝ) : ℝ :=
  if value < 0.001 then -60 else 20 * Real.logb 10 value

/-- Embeds Python's `round(x, 0)`: round to the nearest integer, ties going
to the nearest even integer (banker's rounding).  The result is returned as
an integer; the Python float result has the same numeric value. -/
def roundE (x : ℝ) : ℤ :=
  if x - ⌊x⌋ < 1 / 2 then ⌊x⌋
  else if 1 / 2 < x - ⌊x⌋ then ⌊x⌋ + 1
  else if Even ⌊x⌋ then ⌊x⌋ else ⌊x⌋ + 1

/-- `Settings.INTENSITY_RANGE = [0.0, 1.0]`. -/
def INTENSITY_RANGE : ℝ × ℝ := (0, 1)

/-- `Settings.SPECTRUM_RANGE = [-1.0, 1.0]`. -/
def SPECTRUM_RANGE : ℝ × ℝ := (-1, 1)

/-- `Settings.UI_RANGE = [-20.0, 0.0]`. -/
def UI_RANGE : ℝ × ℝ := (-20, 0)

/-- The mutable state of the `Settings` class: the two hardware-facing
underlying values (the logger callback carries no numeric state and is
omitted; log emission is a pure side channel of the same values). -/
structure Settings where
  _intensity : ℝ
  _spectrum : ℝ

/-- `Settings.__init__`: `_intensity = 1.0`, `_spectrum = 0.0`. -/
def Settings.init : Settings := ⟨1, 0⟩

/-- The `intensity` read property. -/
def Settings.intensity (s : Settings) : ℝ := s._intensity

/-- The `spectrum` read property. -/
def Settings.spectrum (s : Settings) : ℝ := s._spectrum

/-- The `movement` read property: computed UI movement dB from HW values. -/
def Settings.movement (s : Settings) : ℝ :=
  let upper_db := safe_20log10 s._intensity
  let diff_db := 20 * s._spectrum
  let mov := if diff_db < 0 then upper_db else upper_db - diff_db
  clip ((roundE mov : ℝ)) UI_RANGE.1 UI_RANGE.2

/-- The `vibration` read property: computed UI vibration dB from HW values. -/
def Settings.vibration (s : Settings) : ℝ :=
  let upper_db := safe_20log10 s._intensity
  let diff_db := 20 * s._spectrum
  let vib := if diff_db < 0 then upper_db + diff_db else upper_db
  clip ((roundE vib : ℝ)) UI_RANGE.1 UI_RANGE.2

/-- The `intensity` setter: clip into `INTENSITY_RANGE`. -/
def Settings.setIntensity (s : Settings) (value : ℝ) : Settings :=
  { s with _intensity := clip value INTENSITY_RANGE.1 INTENSITY_RANGE.2 }

/-- The `spectrum` setter: clip into `SPECTRUM_RANGE`. -/
def Settings.setSpectrum (s : Settings) (value : ℝ) : Settings :=
  { s with _spectrum := clip value SPECTRUM_RANGE.1 SPECTRUM_RANGE.2 }

/-- `Settings._set_from_mov_vib(mov, vib)`: back-solve both underlying
values from a desired (movement, vibration) pair, with validation (clip).
`math.pow(10, upper_db/20.0)` is real exponentiation. -/
def Settings._set_from_mov_vib (_s : Settings) (mov vib : ℝ) : Settings :=
  let upper_db := max mov vib
  let diff_db := vib - mov
  ⟨clip ((10 : ℝ) ^ (upper_db / 20)) INTENSITY_RANGE.1 INTENSITY_RANGE.2,
   clip (diff_db / 20) SPECTRUM_RANGE.1 SPECTRUM_RANGE.2⟩

/-- The `movement` setter: freeze the currently computed vibration, then
back-solve the HW values. -/
def Settings.setMovement (s : Settings) (value : ℝ) : Settings :=
  s._set_from_mov_vib value s.vibration

/-- The `vibration` setter: freeze the currently computed movement, then
back-solve the HW values. -/
def Settings.setVibration (s : Settings) (value : ℝ) : Settings :=
  s._set_from_mov_vib s.movement value

/-- One user-visible mutation of the model: a call to one of the four
property setters. -/
inductive Op where
  | setI (x : ℝ)
  | setS (x : ℝ)
  | setM (x : ℝ)
  | setV (x : ℝ)

/-- Apply one setter call to the state. -/
def Settings.apply (s : Settings) : Op → Settings
  | Op.setI x => s.setIntensity x
  | Op.setS x => s.setSpectrum x
  | Op.setM x => s.setMovement x
  | Op.setV x => s.setVibration x

/-- Run a sequence of setter calls from the constructed state. -/
def run (ops : List Op) : Settings :=
  ops.foldl Settings.apply Settings.init

/-! ## Basic facts about `clip` -/

theorem clip_eq_ite (value lo hi : ℝ) (h : lo ≤ hi) :
    clip value lo hi = if value < lo then lo else if value > hi then hi else value := by
  unfold clip
  dsimp only
  split_ifs <;> first | rfl | linarith

theorem clip_of_le_of_le {value lo hi : ℝ} (h1 : lo ≤ value) (h2 : value ≤ hi) :
    clip value lo hi = value := by
  rw [clip_eq_ite value lo hi (le_trans h1 h2)]
  split_ifs <;> first | rfl | linarith

theorem clip_of_le_lo {value lo hi : ℝ} (h1 : value ≤ lo) (h2 : lo ≤ hi) :
    clip value lo hi = lo := by
  rw [clip_eq_ite value lo hi h2]
  split_ifs <;> first | rfl | linarith

theorem clip_of_hi_le {value lo hi : ℝ} (h1 : hi ≤ value) (h2 : lo ≤ hi) :
    clip value lo hi = hi := by
  rw [clip_eq_ite value lo hi h2]
  split_ifs <;> first | rfl | linarith

theorem le_clip {value lo hi : ℝ} (h : lo ≤ hi) : lo ≤ clip value lo hi := by
  rw [clip_eq_ite value lo hi h]
  split_ifs <;> linarith

theorem clip_le {value lo hi : ℝ} (h : lo ≤ hi) : clip value lo hi ≤ hi := by
  rw [clip_eq_ite value lo hi h]
  split_ifs <;> linarith

/-! ## Basic facts about banker's rounding -/

theorem floor_le_roundE (x : ℝ) : ⌊x⌋ ≤ roundE x := by
  unfold roundE
  split_ifs <;> omega

theorem roundE_le_floor_add_one (x : ℝ) : roundE x ≤ ⌊x⌋ + 1 := by
  unfold roundE
  split_ifs <;> omega

theorem roundE_intCast (k : ℤ) : roundE ((k : ℝ)) = k := by
  unfold roundE
  rw [Int.floor_intCast]
  rw [if_pos (by norm_num)]

theorem roundE_le_int {x : ℝ} {n : ℤ} (h : x ≤ (n : ℝ)) : roundE x ≤ n := by
  have hfl : ⌊x⌋ ≤ n := by
    have := Int.floor_le_floor h
    rwa [Int.floor_intCast] at this
  unfold roundE
  split_ifs with h1 h2 h3
  · exact hfl
  · rcases eq_or_lt_of_le hfl with heq | hlt
    · exfalso
      have hx : (⌊x⌋ : ℝ) ≤ x := Int.floor_le x
      rw [heq] at h2
      linarith
    · omega
  · exact hfl
  · rcases eq_or_lt_of_le hfl with heq | hlt
    · exfalso
      have hx : x - ⌊x⌋ = 1 / 2 := le_antisymm (not_lt.mp h2) (not_lt.mp h1)
      rw [heq] at hx
      have : ((n : ℝ)) ≤ x := by linarith
      have hxn : x = n + 1 / 2 := by linarith
      rw [hxn] at h
      norm_num at h
    · omega

theorem int_le_roundE {x : ℝ} {n : ℤ} (h : (n : ℝ) ≤ x) : n ≤ roundE x := by
  have hfl : n ≤ ⌊x⌋ := Int.le_floor.mpr h
  exact le_trans hfl (floor_le_roundE x)

theorem roundE_of_lo (x : ℝ) (k : ℤ) (h1 : (k : ℝ) ≤ x) (h2 : x < (k : ℝ) + 1 / 2) :
    roundE x = k := by
  have hfl : ⌊x⌋ = k := Int.floor_eq_iff.mpr ⟨h1, by push_cast; linarith⟩
  unfold roundE
  rw [hfl, if_pos (by linarith)]

theorem roundE_of_hi (x : ℝ) (k : ℤ) (h1 : (k : ℝ) + 1 / 2 < x) (h2 : x < (k : ℝ) + 1) :
    roundE x = k + 1 := by
  have hfl : ⌊x⌋ = k := Int.floor_eq_iff.mpr ⟨by linarith, by push_cast; linarith⟩
  unfold roundE
  rw [hfl, if_neg (by linarith), if_pos (by linarith)]

theorem roundE_of_tie (x : ℝ) (k : ℤ) (h : x = (k : ℝ) + 1 / 2) :
    roundE x = if Even k then k else k + 1 := by
  have hfl : ⌊x⌋ = k := Int.floor_eq_iff.mpr ⟨by linarith, by push_cast; linarith⟩
  unfold roundE
  rw [hfl, if_neg (by linarith), if_neg (by linarith)]

/-! ## The forward/backward amplitude transform -/

theorem clip_rpow (u : ℝ) :
    clip ((10 : ℝ) ^ (u / 20)) 0 1 = (10 : ℝ) ^ (min u 0 / 20) := by
  rcases le_or_lt u 0 with hu | hu
  · rw [min_eq_left hu]
    refine clip_of_le_of_le (le_of_lt (Real.rpow_pos_of_pos (by norm_num) _)) ?_
    exact Real.rpow_le_one_of_one_le_of_nonpos (by norm_num)
      (div_nonpos_iff.mpr (Or.inr ⟨hu, by norm_num⟩))
  · rw [min_eq_right (le_of_lt hu), zero_div, Real.rpow_zero]
    refine clip_of_hi_le ?_ (by norm_num)
    refine le_of_lt ((Real.one_lt_rpow_iff_of_pos (by norm_num)).mpr ?_)
    exact Or.inl ⟨by norm_num, by positivity⟩

theorem safe_20log10_rpow (m : ℝ) (h : -60 ≤ m) :
    safe_20log10 ((10 : ℝ) ^ (m / 20)) = m := by
  have h1 : ¬((10 : ℝ) ^ (m / 20) < 0.001) := by
    rw [not_lt, show (0.001 : ℝ) = (10 : ℝ) ^ ((-3 : ℤ) : ℝ) from by
      rw [Real.rpow_intCast]; norm_num]
    exact (Real.rpow_le_rpow_left_iff (by norm_num)).mpr (by push_cast; linarith)
  rw [safe_20log10, if_neg h1, Real.logb_rpow (by norm_num) (by norm_num)]
  ring

/-! ## The state produced by `_set_from_mov_vib` -/

theorem set_from_self_irrel (a b : Settings) (mov vib : ℝ) :
    a._set_from_mov_vib mov vib = b._set_from_mov_vib mov vib := rfl

theorem intensity_set_from (s : Settings) (mov vib : ℝ) :
    (s._set_from_mov_vib mov vib)._intensity = (10 : ℝ) ^ (min (max mov vib) 0 / 20) := by
  show clip ((10 : ℝ) ^ (max mov vib / 20)) INTENSITY_RANGE.1 INTENSITY_RANGE.2 = _
  rw [INTENSITY_RANGE]
  exact clip_rpow (max mov vib)

theorem spectrum_set_from (s : Settings) (mov vib : ℝ) :
    (s._set_from_mov_vib mov vib)._spectrum = clip ((vib - mov) / 20) (-1) 1 := rfl

theorem upper_set_from (s : Settings) (mov vib : ℝ) (h : -20 ≤ max mov vib) :
    safe_20log10 ((s._set_from_mov_vib mov vib)._intensity) = min (max mov vib) 0 := by
  rw [intensity_set_from]
  refine safe_20log10_rpow _ ?_
  rcases le_or_lt (max mov vib) 0 with h0 | h0
  · rw [min_eq_left h0]; linarith
  · rw [min_eq_right (le_of_lt h0)]; norm_num

theorem diff_set_from (s : Settings) (mov vib : ℝ) :
    20 * (s._set_from_mov_vib mov vib)._spectrum = clip (vib - mov) (-20) 20 := by
  rw [spectrum_set_from,
    clip_eq_ite ((vib - mov) / 20) (-1) 1 (by norm_num),
    clip_eq_ite (vib - mov) (-20) 20 (by norm_num)]
  split_ifs <;> linarith

theorem clip_neg_iff (d : ℝ) : clip d (-20) 20 < 0 ↔ d < 0 := by
  rw [clip_eq_ite d (-20) 20 (by norm_num)]
  split_ifs <;> constructor <;> intro <;> linarith

/-! ## Unfolded forms and integrality of the derived getters -/

theorem movement_eq (s : Settings) :
    s.movement = clip ((roundE (if 20 * s._spectrum < 0 then safe_20log10 s._intensity
      else safe_20log10 s._intensity - 20 * s._spectrum) : ℝ)) (-20) 0 := rfl

theorem vibration_eq (s : Settings) :
    s.vibration = clip ((roundE (if 20 * s._spectrum < 0 then
      safe_20log10 s._intensity + 20 * s._spectrum
      else safe_20log10 s._intensity) : ℝ)) (-20) 0 := rfl

theorem clip_int_form (k : ℤ) :
    ∃ j : ℤ, clip ((k : ℝ)) (-20) 0 = (j : ℝ) ∧ -20 ≤ j ∧ j ≤ 0 := by
  rw [clip_eq_ite _ _ _ (by norm_num)]
  split_ifs with h1 h2
  · exact ⟨-20, by norm_num⟩
  · exact ⟨0, by norm_num⟩
  · refine ⟨k, rfl, ?_, ?_⟩
    · exact_mod_cast not_lt.mp h1
    · exact_mod_cast not_lt.mp h2

theorem movement_form (s : Settings) :
    ∃ j : ℤ, s.movement = (j : ℝ) ∧ -20 ≤ j ∧ j ≤ 0 := by
  rw [movement_eq]; exact clip_int_form _

theorem vibration_form (s : Settings) :
    ∃ j : ℤ, s.vibration = (j : ℝ) ∧ -20 ≤ j ∧ j ≤ 0 := by
  rw [vibration_eq]; exact clip_int_form _

theorem clip_roundE_int (j : ℤ) (h1 : -20 ≤ j) (h2 : j ≤ 0) :
    clip ((roundE ((j : ℝ)) : ℝ)) (-20) 0 = (j : ℝ) := by
  rw [roundE_intCast]
  exact clip_of_le_of_le (by exact_mod_cast h1) (by exact_mod_cast h2)

theorem movement_mem (s : Settings) :
    -20 ≤ s.movement ∧ s.movement ≤ 0 ∧
      clip ((roundE s.movement : ℝ)) (-20) 0 = s.movement := by
  obtain ⟨j, hj, hj1, hj2⟩ := movement_form s
  rw [hj]
  exact ⟨by exact_mod_cast hj1, by exact_mod_cast hj2, clip_roundE_int j hj1 hj2⟩

theorem vibration_mem (s : Settings) :
    -20 ≤ s.vibration ∧ s.vibration ≤ 0 ∧
      clip ((roundE s.vibration : ℝ)) (-20) 0 = s.vibration := by
  obtain ⟨j, hj, hj1, hj2⟩ := vibration_form s
  rw [hj]
  exact ⟨by exact_mod_cast hj1, by exact_mod_cast hj2, clip_roundE_int j hj1 hj2⟩

/-! ## The derived getters after a back-solve -/

theorem movement_set_from (s : Settings) (mov vib : ℝ) (h1 : -20 ≤ vib) (h2 : vib ≤ 0) :
    (s._set_from_mov_vib mov vib).movement = clip ((roundE mov : ℝ)) (-20) 0 := by
  have hmax : -20 ≤ max mov vib := le_trans h1 (le_max_right mov vib)
  rw [movement_eq, diff_set_from, upper_set_from s mov vib hmax]
  rcases lt_or_le (vib - mov) 0 with hd | hd
  · rw [if_pos ((clip_neg_iff _).mpr hd)]
    rw [max_eq_left (by linarith : vib ≤ mov)]
    rcases le_or_lt mov 0 with hm | hm
    · rw [min_eq_left hm]
    · rw [min_eq_right (le_of_lt hm)]
      have h0 : (0 : ℤ) ≤ roundE mov := int_le_roundE (by push_cast; linarith)
      rw [show ((0 : ℝ)) = ((0 : ℤ) : ℝ) from by norm_num, roundE_intCast,
        clip_of_le_of_le (by norm_num) (by norm_num),
        clip_of_hi_le (by exact_mod_cast h0) (by norm_num)]
  · rw [if_neg (by rw [clip_neg_iff]; linarith)]
    rw [max_eq_right (by linarith : mov ≤ vib), min_eq_left h2]
    rcases le_or_lt (vib - mov) 20 with hd2 | hd2
    · rw [clip_of_le_of_le (by linarith) hd2,
        show vib - (vib - mov) = mov from by ring]
    · rw [clip_of_hi_le (le_of_lt hd2) (by norm_num)]
      have hL : roundE (vib - 20) ≤ -20 := roundE_le_int (by push_cast; linarith)
      have hR : roundE mov ≤ -20 := roundE_le_int (by push_cast; linarith)
      rw [clip_of_le_lo (by exact_mod_cast hL) (by norm_num),
        clip_of_le_lo (by exact_mod_cast hR) (by norm_num)]

theorem vibration_set_from (s : Settings) (mov vib : ℝ) (h1 : -20 ≤ mov) (h2 : mov ≤ 0) :
    (s._set_from_mov_vib mov vib).vibration = clip ((roundE vib : ℝ)) (-20) 0 := by
  have hmax : -20 ≤ max mov vib := le_trans h1 (le_max_left mov vib)
  rw [vibration_eq, diff_set_from, upper_set_from s mov vib hmax]
  rcases lt_or_le (vib - mov) 0 with hd | hd
  · rw [if_pos ((clip_neg_iff _).mpr hd)]
    rw [max_eq_left (by linarith : vib ≤ mov), min_eq_left h2]
    rcases le_or_lt (-20) (vib - mov) with hd2 | hd2
    · rw [clip_of_le_of_le hd2 (by linarith),
        show mov + (vib - mov) = vib from by ring]
    · rw [clip_of_le_lo (le_of_lt hd2) (by norm_num)]
      have hL : roundE (mov + -20) ≤ -20 := roundE_le_int (by push_cast; linarith)
      have hR : roundE vib ≤ -20 := roundE_le_int (by push_cast; linarith)
      rw [clip_of_le_lo (by exact_mod_cast hL) (by norm_num),
        clip_of_le_lo (by exact_mod_cast hR) (by norm_num)]
  · rw [if_neg (by rw [clip_neg_iff]; linarith)]
    rw [max_eq_right (by linarith : mov ≤ vib)]
    rcases le_or_lt vib 0 with hv | hv
    · rw [min_eq_left hv]
    · rw [min_eq_right (le_of_lt hv)]
      have h0 : (0 : ℤ) ≤ roundE vib := int_le_roundE (by push_cast; linarith)
      rw [show ((0 : ℝ)) = ((0 : ℤ) : ℝ) from by norm_num, roundE_intCast,
        clip_of_le_of_le (by norm_num) (by norm_num),
        clip_of_hi_le (by exact_mod_cast h0) (by norm_num)]

theorem vibration_preserved (s : Settings) (mov vib : ℝ) (hm : mov ≤ 0)
    (h1 : -20 ≤ vib) (h2 : vib ≤ 0)
    (hfix : clip ((roundE vib : ℝ)) (-20) 0 = vib) :
    (s._set_from_mov_vib mov vib).vibration = vib := by
  have hmax : -20 ≤ max mov vib := le_trans h1 (le_max_right mov vib)
  rw [vibration_eq, diff_set_from, upper_set_from s mov vib hmax]
  rcases lt_or_le (vib - mov) 0 with hd | hd
  · rw [if_pos ((clip_neg_iff _).mpr hd)]
    rw [max_eq_left (by linarith : vib ≤ mov), min_eq_left hm]
    rw [clip_of_le_of_le (show (-20 : ℝ) ≤ vib - mov from by linarith)
        (show vib - mov ≤ (20 : ℝ) from by linarith),
      show mov + (vib - mov) = vib from by ring, hfix]
  · rw [if_neg (by rw [clip_neg_iff]; linarith)]
    rw [max_eq_right (by linarith : mov ≤ vib), min_eq_left h2, hfix]

theorem movement_preserved (s : Settings) (mov vib : ℝ) (hv : vib ≤ 0)
    (h1 : -20 ≤ mov) (h2 : mov ≤ 0)
    (hfix : clip ((roundE mov : ℝ)) (-20) 0 = mov) :
    (s._set_from_mov_vib mov vib).movement = mov := by
  have hmax : -20 ≤ max mov vib := le_trans h1 (le_max_left mov vib)
  rw [movement_eq, diff_set_from, upper_set_from s mov vib hmax]
  rcases lt_or_le (vib - mov) 0 with hd | hd
  · rw [if_pos ((clip_neg_iff _).mpr hd)]
    rw [max_eq_left (by linarith : vib ≤ mov), min_eq_left h2, hfix]
  · rw [if_neg (by rw [clip_neg_iff]; linarith)]
    rw [max_eq_right (by linarith : mov ≤ vib), min_eq_left hv]
    rw [clip_of_le_of_le (show (-20 : ℝ) ≤ vib - mov from by linarith)
        (show vib - mov ≤ (20 : ℝ) from by linarith),
      show vib - (vib - mov) = mov from by ring, hfix]

/-! ## Concrete-evaluation helpers -/

theorem Settings.eq_mk (a : Settings) (x y : ℝ) (h1 : a._intensity = x)
    (h2 : a._spectrum = y) : a = ⟨x, y⟩ := by
  cases a; cases h1; cases h2; rfl

theorem safe_20log10_one : safe_20log10 1 = 0 := by
  rw [safe_20log10, if_neg (by norm_num)]
  simp [Real.logb_one]

theorem setSpectrum_eval (s : Settings) (x : ℝ) (h1 : (-1 : ℝ) ≤ x) (h2 : x ≤ 1) :
    s.setSpectrum x = ⟨s._intensity, x⟩ := by
  show (⟨s._intensity, clip x (-1) 1⟩ : Settings) = _
  rw [clip_of_le_of_le h1 h2]

theorem set_from_eval_pos (s : Settings) (mov vib : ℝ) (hvm : vib ≤ mov) (hm : 0 ≤ mov)
    (h3 : (-1 : ℝ) ≤ (vib - mov) / 20) (h4 : (vib - mov) / 20 ≤ 1) :
    s._set_from_mov_vib mov vib = ⟨1, (vib - mov) / 20⟩ := by
  refine Settings.eq_mk _ _ _ ?_ ?_
  · rw [intensity_set_from, max_eq_left hvm, min_eq_right hm, zero_div, Real.rpow_zero]
  · rw [spectrum_set_from, clip_of_le_of_le h3 h4]

theorem vibration_one_neg (b : ℝ) (hb : b < 0) :
    (Settings.mk 1 b).vibration = clip ((roundE (20 * b) : ℝ)) (-20) 0 := by
  rw [vibration_eq]
  dsimp only
  rw [safe_20log10_one, if_pos (by linarith : 20 * b < 0), zero_add]

theorem movement_one_nonneg (b : ℝ) (hb : 0 ≤ b) :
    (Settings.mk 1 b).movement = clip ((roundE (0 - 20 * b) : ℝ)) (-20) 0 := by
  rw [movement_eq]
  dsimp only
  rw [safe_20log10_one, if_neg (by linarith : ¬(20 * b < 0))]

theorem clip_roundE_real (x : ℝ) (k : ℤ) (hx : x = (k : ℝ)) (h1 : -20 ≤ k) (h2 : k ≤ 0) :
    clip ((roundE x : ℝ)) (-20) 0 = x := by
  rw [hx, roundE_intCast]
  exact clip_of_le_of_le (by exact_mod_cast h1) (by exact_mod_cast h2)

theorem vibration_eval_quarter : (Settings.mk 1 (-0.25)).vibration = -5 := by
  rw [vibration_one_neg (-0.25) (by norm_num)]
  rw [clip_roundE_real _ (-5) (by norm_num) (by norm_num) (by norm_num)]
  norm_num

theorem vibration_eval_fourtenths : (Settings.mk 1 (-0.4)).vibration = -8 := by
  rw [vibration_one_neg (-0.4) (by norm_num)]
  rw [clip_roundE_real _ (-8) (by norm_num) (by norm_num) (by norm_num)]
  norm_num

theorem setMovement3_eval1 : (Settings.mk 1 (-0.25)).setMovement 3 = ⟨1, -0.4⟩ := by
  show (Settings.mk 1 (-0.25))._set_from_mov_vib 3 (Settings.mk 1 (-0.25)).vibration = _
  rw [vibration_eval_quarter]
  rw [set_from_eval_pos _ 3 (-5) (by norm_num) (by norm_num) (by norm_num) (by norm_num)]
  norm_num [Settings.mk.injEq]

theorem setMovement3_eval2 : (Settings.mk 1 (-0.4)).setMovement 3 = ⟨1, -0.55⟩ := by
  show (Settings.mk 1 (-0.4))._set_from_mov_vib 3 (Settings.mk 1 (-0.4)).vibration = _
  rw [vibration_eval_fourtenths]
  rw [set_from_eval_pos _ 3 (-8) (by norm_num) (by norm_num) (by norm_num) (by norm_num)]
  norm_num [Settings.mk.injEq]

/-! ## Claim theorems -/

/-- C1: setting the derived quantity movement to any `x` and re-reading
movement returns `clip(round(x), -20, 0)` (the derived range `UI_RANGE`);
symmetrically, after setting vibration to `x`, re-reading vibration returns
the set value rounded and clipped to the derived range. -/
theorem set_derived_rereads_round_clip (s : Settings) (x : ℝ) :
    (s.setMovement x).movement = clip ((roundE x : ℝ)) (-20) 0 ∧
    (s.setVibration x).vibration = clip ((roundE x : ℝ)) (-20) 0 := by
  obtain ⟨hv1, hv2, _⟩ := vibration_mem s
  obtain ⟨hm1, hm2, _⟩ := movement_mem s
  constructor
  · show (s._set_from_mov_vib x s.vibration).movement = _
    exact movement_set_from s x s.vibration hv1 hv2
  · show (s._set_from_mov_vib s.movement x).vibration = _
    exact vibration_set_from s s.movement x hm1 hm2

/-- C2 (counterexample): from the reachable state obtained by
`setSpectrum(-0.25)` (vibration reads `-5`), calling `setMovement(3)`
changes the subsequently read vibration to `-8`: the other derived quantity
is *not* held constant for an out-of-range movement request. -/
theorem set_movement_perturbs_vibration :
    (Settings.init.setSpectrum (-0.25)).vibration = -5 ∧
    ((Settings.init.setSpectrum (-0.25)).setMovement 3).vibration = -8 ∧
    ((Settings.init.setSpectrum (-0.25)).setMovement 3).vibration ≠
      (Settings.init.setSpectrum (-0.25)).vibration := by
  have h0 : Settings.init.setSpectrum (-0.25) = ⟨1, -0.25⟩ :=
    setSpectrum_eval _ _ (by norm_num) (by norm_num)
  have h1 : (Settings.init.setSpectrum (-0.25)).setMovement 3 = ⟨1, -0.4⟩ := by
    rw [h0, setMovement3_eval1]
  rw [h1, h0, vibration_eval_quarter, vibration_eval_fourtenths]
  norm_num

/-- C2 (amended): setting a derived quantity to a value `x ≤ 0` (at or below
the top of the derived range) leaves the other derived quantity's read value
unchanged; for `x > 0` the intensity clip can absorb the overshoot and
perturb the other axis. -/
theorem other_axis_preserved_of_nonpos (s : Settings) (x : ℝ) (hx : x ≤ 0) :
    (s.setMovement x).vibration = s.vibration ∧
    (s.setVibration x).movement = s.movement := by
  obtain ⟨hv1, hv2, hvfix⟩ := vibration_mem s
  obtain ⟨hm1, hm2, hmfix⟩ := movement_mem s
  constructor
  · show (s._set_from_mov_vib x s.vibration).vibration = _
    exact vibration_preserved s x s.vibration hx hv1 hv2 hvfix
  · show (s._set_from_mov_vib s.movement x).movement = _
    exact movement_preserved s s.movement x hx hm1 hm2 hmfix

/-- C2 (witness): the amended theorem applied at a concrete input. -/
theorem other_axis_preserved_witness :
    (-3 : ℝ) ≤ 0 ∧
    ((Settings.init.setMovement (-3)).vibration = Settings.init.vibration ∧
     (Settings.init.setVibration (-3)).movement = Settings.init.movement) :=
  ⟨by norm_num, other_axis_preserved_of_nonpos Settings.init (-3) (by norm_num)⟩

/-! ## The underlying-range invariant -/

/-- The invariant on the stored underlying pair: `_intensity` within
`INTENSITY_RANGE` and `_spectrum` within `SPECTRUM_RANGE`. -/
def Inv (s : Settings) : Prop :=
  0 ≤ s._intensity ∧ s._intensity ≤ 1 ∧ -1 ≤ s._spectrum ∧ s._spectrum ≤ 1

theorem set_from_inv (s : Settings) (mov vib : ℝ) : Inv (s._set_from_mov_vib mov vib) := by
  refine ⟨?_, ?_, ?_, ?_⟩
  · show (0 : ℝ) ≤ clip ((10 : ℝ) ^ (max mov vib / 20)) 0 1
    exact le_clip (by norm_num)
  · show clip ((10 : ℝ) ^ (max mov vib / 20)) 0 1 ≤ 1
    exact clip_le (by norm_num)
  · show (-1 : ℝ) ≤ clip ((vib - mov) / 20) (-1) 1
    exact le_clip (by norm_num)
  · show clip ((vib - mov) / 20) (-1) 1 ≤ 1
    exact clip_le (by norm_num)

theorem apply_inv (s : Settings) (op : Op) (hs : Inv s) : Inv (s.apply op) := by
  cases op with
  | setI x =>
    refine ⟨?_, ?_, hs.2.2.1, hs.2.2.2⟩
    · show (0 : ℝ) ≤ clip x 0 1
      exact le_clip (by norm_num)
    · show clip x 0 1 ≤ 1
      exact clip_le (by norm_num)
  | setS x =>
    refine ⟨hs.1, hs.2.1, ?_, ?_⟩
    · show (-1 : ℝ) ≤ clip x (-1) 1
      exact le_clip (by norm_num)
    · show clip x (-1) 1 ≤ 1
      exact clip_le (by norm_num)
  | setM x => exact set_from_inv s x s.vibration
  | setV x => exact set_from_inv s s.movement x

/-- C3: starting from the constructed state (intensity `1.0`, spectrum
`0.0`), after any sequence of calls to the four setters with arbitrary
arguments, the stored underlying values satisfy `_intensity ∈ [0, 1]` and
`_spectrum ∈ [-1, 1]`. -/
theorem run_preserves_underlying_ranges (ops : List Op) :
    0 ≤ (run ops)._intensity ∧ (run ops)._intensity ≤ 1 ∧
    -1 ≤ (run ops)._spectrum ∧ (run ops)._spectrum ≤ 1 := by
  suffices h : ∀ (l : List Op) (s : Settings), Inv s → Inv (l.foldl Settings.apply s) by
    exact h ops Settings.init
      ⟨by norm_num [Settings.init], by norm_num [Settings.init],
       by norm_num [Settings.init], by norm_num [Settings.init]⟩
  intro l
  induction l with
  | nil => intro s hs; exact hs
  | cons op t ih =>
    intro s hs
    rw [List.foldl_cons]
    exact ih (s.apply op) (apply_inv s op hs)

/-! ## The derived-getter formula as the specification states it -/

/-- The movement formula exactly as written in the specification (§4):
`upperDb` via the safe-floor amplitude transform, `diffDb = 20·b`, branch
on the sign of `diffDb`, then round to the nearest integer dB and clip to
the closed derived range `[-20, 0]`. -/
def spec_movement (a b : ℝ) : ℝ :=
  let upperDb := if a < 0.001 then -60 else 20 * Real.logb 10 a
  let diffDb := 20 * b
  let m := if diffDb < 0 then upperDb else upperDb - diffDb
  clip ((roundE m : ℝ)) (-20) 0

/-- The vibration formula exactly as written in the specification (§4). -/
def spec_vibration (a b : ℝ) : ℝ :=
  let upperDb := if a < 0.001 then -60 else 20 * Real.logb 10 a
  let diffDb := 20 * b
  let v := if diffDb < 0 then upperDb + diffDb else upperDb
  clip ((roundE v : ℝ)) (-20) 0

/-- C4: for every state, the derived getters compute exactly the
specification's formula: safe-floored `20·log10` amplitude, `diffDb = 20·b`,
the sign-of-difference branch, rounding to the nearest integer dB, and
clipping to the closed interval `[-20, 0]`. -/
theorem getters_match_spec_formula (s : Settings) :
    s.movement = spec_movement s._intensity s._spectrum ∧
    s.vibration = spec_vibration s._intensity s._spectrum :=
  ⟨rfl, rfl⟩

/-- C5: `setMovement(m); vib0 = getVibration(); setVibration(vib0)` leaves
`getMovement()` unchanged within a tolerance of 1 dB (it is in fact exactly
unchanged) and leaves `getVibration()` exactly equal to `vib0`. -/
theorem roundtrip_movement_vibration (s : Settings) (m : ℝ) :
    |((s.setMovement m).setVibration ((s.setMovement m).vibration)).movement -
      (s.setMovement m).movement| ≤ 1 ∧
    ((s.setMovement m).setVibration ((s.setMovement m).vibration)).vibration =
      (s.setMovement m).vibration := by
  set s1 := s.setMovement m with hs1
  obtain ⟨hm1, hm2, hmfix⟩ := movement_mem s1
  obtain ⟨hv1, hv2, hvfix⟩ := vibration_mem s1
  have hmov : (s1.setVibration s1.vibration).movement = s1.movement := by
    show (s1._set_from_mov_vib s1.movement s1.vibration).movement = _
    exact movement_preserved s1 s1.movement s1.vibration hv2 hm1 hm2 hmfix
  have hvib : (s1.setVibration s1.vibration).vibration = s1.vibration := by
    show (s1._set_from_mov_vib s1.movement s1.vibration).vibration = _
    rw [vibration_set_from s1 s1.movement s1.vibration hm1 hm2, hvfix]
  rw [hmov, hvib]
  simp

/-- C6 (counterexample): from the reachable state with spectrum `-0.25`,
calling `setMovement(3)` once stores spectrum `-0.4`, calling it a second
time with the same argument stores spectrum `-0.55`: the movement setter is
not idempotent for an out-of-range argument. -/
theorem set_movement_not_idempotent :
    ((Settings.init.setSpectrum (-0.25)).setMovement 3)._spectrum = -0.4 ∧
    (((Settings.init.setSpectrum (-0.25)).setMovement 3).setMovement 3)._spectrum = -0.55 ∧
    ((Settings.init.setSpectrum (-0.25)).setMovement 3).setMovement 3 ≠
      (Settings.init.setSpectrum (-0.25)).setMovement 3 := by
  have h0 : Settings.init.setSpectrum (-0.25) = ⟨1, -0.25⟩ :=
    setSpectrum_eval _ _ (by norm_num) (by norm_num)
  have e1 : (Settings.init.setSpectrum (-0.25)).setMovement 3 = ⟨1, -0.4⟩ := by
    rw [h0, setMovement3_eval1]
  have e2 : ((Settings.init.setSpectrum (-0.25)).setMovement 3).setMovement 3
      = ⟨1, -0.55⟩ := by
    rw [e1, setMovement3_eval2]
  rw [e2, e1]
  norm_num [Settings.mk.injEq]

/-- C6 (amended): the two direct setters are idempotent under repeated
identical input for every argument; each derived setter called with its
getter's current value leaves that getter's value unchanged; on every state
satisfying the underlying-range invariant (which holds for all reachable
states, see C3) `setA(getA())` leaves `getA()` unchanged for the direct
setters too; and the two derived setters are idempotent for every argument
`x ≤ 0` (in particular for every argument inside the derived range).  For a
derived-setter argument `x > 0` idempotence can fail. -/
theorem setters_idempotent (s : Settings) (x : ℝ) :
    (s.setIntensity x).setIntensity x = s.setIntensity x ∧
    (s.setSpectrum x).setSpectrum x = s.setSpectrum x ∧
    (s.setMovement s.movement).movement = s.movement ∧
    (s.setVibration s.vibration).vibration = s.vibration ∧
    (Inv s →
      (s.setIntensity s.intensity).intensity = s.intensity ∧
      (s.setSpectrum s.spectrum).spectrum = s.spectrum) ∧
    (x ≤ 0 →
      (s.setMovement x).setMovement x = s.setMovement x ∧
      (s.setVibration x).setVibration x = s.setVibration x) := by
  obtain ⟨hm1, hm2, hmfix⟩ := movement_mem s
  obtain ⟨hv1, hv2, hvfix⟩ := vibration_mem s
  refine ⟨rfl, rfl, ?_, ?_, fun hInv => ⟨?_, ?_⟩, fun hx => ⟨?_, ?_⟩⟩
  · show (s._set_from_mov_vib s.movement s.vibration).movement = _
    rw [movement_set_from s s.movement s.vibration hv1 hv2, hmfix]
  · show (s._set_from_mov_vib s.movement s.vibration).vibration = _
    rw [vibration_set_from s s.movement s.vibration hm1 hm2, hvfix]
  · show clip s._intensity 0 1 = s._intensity
    exact clip_of_le_of_le hInv.1 hInv.2.1
  · show clip s._spectrum (-1) 1 = s._spectrum
    exact clip_of_le_of_le hInv.2.2.1 hInv.2.2.2
  · have hpres : (s.setMovement x).vibration = s.vibration :=
      vibration_preserved s x s.vibration hx hv1 hv2 hvfix
    show (s.setMovement x)._set_from_mov_vib x ((s.setMovement x).vibration) =
      s._set_from_mov_vib x s.vibration
    rw [hpres]
    exact set_from_self_irrel _ _ _ _
  · have hpres : (s.setVibration x).movement = s.movement :=
      movement_preserved s s.movement x hx hm1 hm2 hmfix
    show (s.setVibration x)._set_from_mov_vib ((s.setVibration x).movement) x =
      s._set_from_mov_vib s.movement x
    rw [hpres]
    exact set_from_self_irrel _ _ _ _

/-- C6 (witness): the amended theorem applied at a concrete input,
discharging both the invariant hypothesis and the `x ≤ 0` hypothesis. -/
theorem setters_idempotent_witness :
    Inv Settings.init ∧ (-3 : ℝ) ≤ 0 ∧
    ((Settings.init.setIntensity Settings.init.intensity).intensity =
        Settings.init.intensity ∧
     (Settings.init.setSpectrum Settings.init.spectrum).spectrum =
        Settings.init.spectrum) ∧
    ((Settings.init.setMovement (-3)).setMovement (-3) = Settings.init.setMovement (-3) ∧
     (Settings.init.setVibration (-3)).setVibration (-3) = Settings.init.setVibration (-3)) :=
  ⟨by norm_num [Inv, Settings.init], by norm_num,
   (setters_idempotent Settings.init (-3)).2.2.2.2.1
     (by norm_num [Inv, Settings.init]),
   (setters_idempotent Settings.init (-3)).2.2.2.2.2 (by norm_num)⟩

theorem clip_roundE_below (x : ℝ) (h : x ≤ -20) : clip ((roundE x : ℝ)) (-20) 0 = -20 := by
  have hL : roundE x ≤ -20 := roundE_le_int (by push_cast; linarith)
  exact clip_of_le_lo (by exact_mod_cast hL) (by norm_num)

/-- C7: for any input below the safe threshold `0.001` the guarded
logarithm returns the safe floor `-60` (the log branch is unreachable), and
after `setIntensity(0)` both derived getters return the safe floor clipped
to the derived range, i.e. `-20`, regardless of the current spectrum. -/
theorem near_zero_safe (s : Settings) (v : ℝ) (hv : v < 0.001) :
    safe_20log10 v = -60 ∧
    (s.setIntensity 0).movement = -20 ∧ (s.setIntensity 0).vibration = -20 := by
  have h0 : (s.setIntensity 0)._intensity = 0 := by
    show clip (0 : ℝ) 0 1 = 0
    exact clip_of_le_of_le le_rfl (by norm_num)
  have hsafe : safe_20log10 ((s.setIntensity 0)._intensity) = -60 := by
    rw [h0, safe_20log10, if_pos (by norm_num)]
  refine ⟨by rw [safe_20log10, if_pos hv], ?_, ?_⟩
  · rw [movement_eq, hsafe]
    rcases lt_or_le (20 * (s.setIntensity 0)._spectrum) 0 with hb | hb
    · rw [if_pos hb]
      exact clip_roundE_below _ (by norm_num)
    · rw [if_neg (not_lt.mpr hb)]
      exact clip_roundE_below _ (by linarith)
  · rw [vibration_eq, hsafe]
    rcases lt_or_le (20 * (s.setIntensity 0)._spectrum) 0 with hb | hb
    · rw [if_pos hb]
      exact clip_roundE_below _ (by linarith)
    · rw [if_neg (not_lt.mpr hb)]
      exact clip_roundE_below _ (by norm_num)

/-- C7 (witness): the theorem applied at intensity input `0`. -/
theorem near_zero_safe_witness :
    (0 : ℝ) < 0.001 ∧
    (safe_20log10 0 = -60 ∧
     (Settings.init.setIntensity 0).movement = -20 ∧
     (Settings.init.setIntensity 0).vibration = -20) :=
  ⟨by norm_num, near_zero_safe Settings.init 0 (by norm_num)⟩

/-- C8: the direct setters clip: after `setIntensity(x)` the intensity
getter returns the nearest bound of `[0, 1]` for out-of-range `x` and `x`
itself for in-range `x`; symmetrically for spectrum with `[-1, 1]`. -/
theorem direct_setters_clip (s : Settings) (x : ℝ) :
    (s.setIntensity x).intensity = (if x < 0 then 0 else if x > 1 then 1 else x) ∧
    (s.setSpectrum x).spectrum = (if x < -1 then -1 else if x > 1 then 1 else x) := by
  constructor
  · show clip x 0 1 = _
    exact clip_eq_ite x 0 1 (by norm_num)
  · show clip x (-1) 1 = _
    exact clip_eq_ite x (-1) 1 (by norm_num)

/-! ## Totality: the only fallible primitive is the logarithm -/

/-- `math.log10` as a fallible operation: it raises for non-positive
input, so the embedding returns `none` there. -/
def log10? (x : ℝ) : Option ℝ :=
  if 0 < x then some (Real.logb 10 x) else none

/-- `safe_20log10` with its logarithm call modelled as fallible. -/
def safe_20log10? (value : ℝ) : Option ℝ :=
  if value < 0.001 then some (-60) else (log10? value).map (fun l => 20 * l)

/-- The movement getter with its logarithm call modelled as fallible. -/
def Settings.movement? (s : Settings) : Option ℝ :=
  (safe_20log10? s._intensity).map (fun upper_db =>
    let diff_db := 20 * s._spectrum
    let mov := if diff_db < 0 then upper_db else upper_db - diff_db
    clip ((roundE mov : ℝ)) UI_RANGE.1 UI_RANGE.2)

/-- The vibration getter with its logarithm call modelled as fallible. -/
def Settings.vibration? (s : Settings) : Option ℝ :=
  (safe_20log10? s._intensity).map (fun upper_db =>
    let diff_db := 20 * s._spectrum
    let vib := if diff_db < 0 then upper_db + diff_db else upper_db
    clip ((roundE vib : ℝ)) UI_RANGE.1 UI_RANGE.2)

theorem safe_20log10_total (v : ℝ) : safe_20log10? v = some (safe_20log10 v) := by
  rw [safe_20log10?, safe_20log10, log10?]
  rcases lt_or_le v 0.001 with h | h
  · rw [if_pos h, if_pos h]
  · rw [if_neg (not_lt.mpr h), if_neg (not_lt.mpr h), if_pos (by linarith : (0 : ℝ) < v)]
    rfl

/-- C9: every operation is total: with the guarded logarithm (the single
fallible primitive) modelled as a fallible call, both derived getters
always succeed and return the value of the total embedding; all other
operations are plain total functions, and range violations are absorbed
by clipping rather than raising. -/
theorem getters_total (s : Settings) :
    s.movement? = some s.movement ∧ s.vibration? = some s.vibration := by
  constructor
  · rw [Settings.movement?, safe_20log10_total]
    rfl
  · rw [Settings.vibration?, safe_20log10_total]
    rfl

/-- C10: the derived getters round with ties to the nearest even integer
(Python `round` half-to-even): at any exact half-integer the even neighbour
is chosen; in particular a raw movement of `-0.5` dB (state intensity `1`,
spectrum `1/40`) reads as `0`, and a raw movement of `-1.5` dB (spectrum
`3/40`) reads as `-2`. -/
theorem rounding_ties_to_even :
    (∀ k : ℤ, roundE ((k : ℝ) + 1 / 2) = if Even k then k else k + 1) ∧
    (Settings.mk 1 (1 / 40)).movement = 0 ∧
    (Settings.mk 1 (3 / 40)).movement = -2 := by
  refine ⟨fun k => roundE_of_tie _ k rfl, ?_, ?_⟩
  · rw [movement_one_nonneg (1 / 40) (by norm_num)]
    rw [show (0 : ℝ) - 20 * (1 / 40) = ((-1 : ℤ) : ℝ) + 1 / 2 from by push_cast; ring]
    rw [roundE_of_tie _ (-1) rfl, if_neg (by decide : ¬Even (-1 : ℤ))]
    rw [show (((-1 : ℤ) + 1 : ℤ) : ℝ) = 0 from by norm_num]
    rw [clip_of_le_of_le (by norm_num) (by norm_num)]
  · rw [movement_one_nonneg (3 / 40) (by norm_num)]
    rw [show (0 : ℝ) - 20 * (3 / 40) = ((-2 : ℤ) : ℝ) + 1 / 2 from by push_cast; ring]
    rw [roundE_of_tie _ (-2) rfl, if_pos (by decide : Even (-2 : ℤ))]
    rw [show (((-2 : ℤ)) : ℝ) = -2 from by norm_num]
    rw [clip_of_le_of_le (by norm_num) (by norm_num)]

end

end SlidersUI
